import Mathlib

/-!
Verification of the unused-access analysis engine of `aws-unused-analyzer`.

The Rust sources (`src/analyzer.rs`, `src/finding.rs`) are shallowly embedded
here.  Instants are modelled as `Int` unix seconds (`DateTime::secs` in the
source yields `i64` seconds; `OffsetDateTime` arithmetic at that granularity).
`OffsetDateTime::from_unix_timestamp` of the `time` crate is fallible: it
rejects timestamps outside the year range `-9999..=9999`; this is modelled by
`fromUnixTimestamp` returning an `Option`.  Fallible provider calls are
modelled as `Except String` values supplied by environment records, and the
access-advisor polling loop additionally records the trace of sleep durations
it performs so that its temporal behaviour is a theorem subject.
-/

/-- Smallest unix timestamp accepted by `OffsetDateTime::from_unix_timestamp`
(`-9999-01-01T00:00:00Z`). -/
def unixMin : Int := -377705116800

/-- Largest unix timestamp accepted by `OffsetDateTime::from_unix_timestamp`
(`9999-12-31T23:59:59Z`). -/
def unixMax : Int := 253402300799

/-- `OffsetDateTime::from_unix_timestamp`: succeeds exactly on timestamps in
the representable year range. -/
def fromUnixTimestamp (t : Int) : Option Int :=
  if unixMin ≤ t ∧ t ≤ unixMax then some t else none

/-- `Duration::days` expressed in seconds. -/
def daysSecs (d : Int) : Int := d * 86400

/-- Rust's `Option::is_some_and`. -/
def isSomeAnd (o : Option α) (p : α → Bool) : Bool :=
  match o with
  | none => false
  | some a => p a

/-- `duration_gt_age` from `src/finding.rs`: `None` counts as unused; a
present timestamp counts as unused when it parses to a valid instant strictly
more than `unused_access_age` days before `analyzed_at` (`is_ok_and` makes an
out-of-range timestamp count as used). -/
def duration_gt_age (last_accessed : Option Int) (analyzed_at : Int)
    (unused_access_age : Int) : Bool :=
  match last_accessed with
  | none => true
  | some t =>
    isSomeAnd (fromUnixTimestamp t)
      (fun l => decide (analyzed_at - l > daysSecs unused_access_age))

/-- `check_last_accessed_detail` from `src/analyzer.rs`: returns `none` (no
finding) when the timestamp is present, in range, and strictly less than
`unused_access_age` days old; otherwise returns `some last_used_at`, the
payload for the finding detail. -/
def check_last_accessed_detail (analyzed_at : Int) (unused_access_age : Int)
    (last_used_at : Option Int) : Option (Option Int) :=
  if isSomeAnd last_used_at
      (fun t => isSomeAnd (fromUnixTimestamp t)
        (fun l => decide (analyzed_at - l < daysSecs unused_access_age))) then
    none
  else
    some last_used_at

/-- `ResourceType` from `src/finding.rs`. -/
inductive ResourceType
  | AwsIamRole
  | AwsIamUser
deriving DecidableEq

/-- `FindingType` from `src/finding.rs`. -/
inductive FindingType
  | UnusedIamRole
  | UnusedIamUserAccessKey
  | UnusedIamUserPassword
  | UnusedPermission
deriving DecidableEq

/-- `UnusedIamRoleDetails` from `src/finding.rs`. -/
structure UnusedIamRoleDetails where
  last_accessed : Option Int
deriving DecidableEq

/-- `UnusedIamUserAccessKeyDetails` from `src/finding.rs`. -/
structure UnusedIamUserAccessKeyDetails where
  last_accessed : Option Int
  access_key_id : String
deriving DecidableEq

/-- `UnusedIamUserPasswordDetails` from `src/finding.rs`. -/
structure UnusedIamUserPasswordDetails where
  last_accessed : Option Int
deriving DecidableEq

/-- `UnusedAction` from `src/finding.rs`. -/
structure UnusedAction where
  action : String
  last_accessed : Option Int
deriving DecidableEq

/-- `UnusedPermissionDetails` from `src/finding.rs`. -/
structure UnusedPermissionDetails where
  actions : Option (List UnusedAction)
  service_namespace : String
  last_accessed : Option Int
deriving DecidableEq

/-- `FindingDetails` from `src/finding.rs`. -/
inductive FindingDetails
  | UnusedIamRoleDetails (d : UnusedIamRoleDetails)
  | UnusedIamUserAccessKeyDetails (d : UnusedIamUserAccessKeyDetails)
  | UnusedIamUserPasswordDetails (d : UnusedIamUserPasswordDetails)
  | UnusedPermissionDetails (d : UnusedPermissionDetails)
deriving DecidableEq

/-- `Finding` from `src/finding.rs`.  The `id` field is a fresh UUID in the
source; no claim concerns ids, so finding construction in this embedding uses
the empty string. -/
structure Finding where
  resource : String
  resource_type : ResourceType
  resource_owner_account : String
  id : String
  finding_details : List FindingDetails
  finding_type : FindingType
deriving DecidableEq

/-- `TrackedActionLastAccessed` from the IAM SDK: the per-action record in an
access-advisor service record. -/
structure TrackedActionLastAccessed where
  action_name : Option String
  last_accessed_time : Option Int
deriving DecidableEq

/-- `ServiceLastAccessed` from the IAM SDK: one per-service record of the
access-advisor output. -/
structure ServiceLastAccessed where
  service_namespace : String
  last_authenticated : Option Int
  tracked_actions_last_accessed : Option (List TrackedActionLastAccessed)
deriving DecidableEq

/-- `From<TrackedActionLastAccessed> for UnusedAction`
(`src/finding.rs`). -/
def UnusedAction.ofTracked (value : TrackedActionLastAccessed) : UnusedAction :=
  { action := value.action_name.getD ""
    last_accessed := value.last_accessed_time }

/-- `From<ServiceLastAccessed> for UnusedPermissionDetails`
(`src/finding.rs`). -/
def UnusedPermissionDetails.ofService (value : ServiceLastAccessed) :
    UnusedPermissionDetails :=
  { actions := value.tracked_actions_last_accessed.map
      (fun a => a.map UnusedAction.ofTracked)
    service_namespace := value.service_namespace
    last_accessed := value.last_authenticated }

/-- `UnusedPermissionDetails::any_not_used` from `src/finding.rs`. -/
def UnusedPermissionDetails.any_not_used (d : UnusedPermissionDetails)
    (analyzed_at : Int) (unused_access_age : Int) : Bool :=
  duration_gt_age d.last_accessed analyzed_at unused_access_age ||
    isSomeAnd d.actions (fun actions =>
      actions.any (fun action =>
        duration_gt_age action.last_accessed analyzed_at unused_access_age))

/-- Modelled from the spec: `UnusedPermissionDetails::all_used` is called by
`analyze_user`/`analyze_role` in `src/analyzer.rs` but its definition is not
among the provided source files (only its sibling `any_not_used` is).  Per the
spec, a service record is kept — i.e. is not "all used" — exactly when the
service-level timestamp is unused or at least one tracked action's timestamp
is unused, which is `any_not_used`; so `all_used` is its negation. -/
def UnusedPermissionDetails.all_used (d : UnusedPermissionDetails)
    (analyzed_at : Int) (unused_access_age : Int) : Bool :=
  !(d.any_not_used analyzed_at unused_access_age)

/-- `JobStatusType` of the IAM SDK: status of an access-advisor job. -/
inductive JobStatusType
  | Completed
  | Failed
  | InProgress
  | Other (value : String)
deriving DecidableEq

/-- One poll of `get_service_last_accessed_details`: either the call itself
fails, or it returns a job status together with the per-service records. -/
inductive PollResp
  | err (e : String)
  | ok (job_status : JobStatusType)
      (services_last_accessed : List ServiceLastAccessed)
deriving DecidableEq

/-- The `for _ in 0..10` polling loop of `MetaData::get_last_accessed`
(`src/analyzer.rs`).  Each iteration sleeps 3 seconds (recorded in the
returned trace) and then issues one poll; `polls i` is the provider's answer
to the `i`-th poll issued.  `Completed` returns the records, a call error
propagates, and any other status — including the failed/other arm, where the
source builds `anyhow!("job status invalid?")` as an expression statement and
drops it without returning — continues the loop. -/
def pollLoop (polls : Nat → PollResp) :
    Nat → Nat → Except String (List ServiceLastAccessed) × List Nat
  | 0 => fun _ => (Except.error "timeout", [])
  | n + 1 => fun i =>
    match polls i with
    | PollResp.err e => (Except.error e, [3])
    | PollResp.ok JobStatusType.Completed svcs => (Except.ok svcs, [3])
    | PollResp.ok JobStatusType.InProgress _ =>
      let r := pollLoop polls n (i + 1)
      (r.1, 3 :: r.2)
    | PollResp.ok _ _ =>
      let r := pollLoop polls n (i + 1)
      (r.1, 3 :: r.2)

/-- Environment for one `get_last_accessed` invocation: the outcome of
`generate_service_last_accessed_details` (its optional `job_id`, or a call
error), and the poll answers. -/
structure AdvisorEnv where
  generate_job : Except String (Option String)
  polls : Nat → PollResp

/-- `MetaData::get_last_accessed` from `src/analyzer.rs`: submit the job,
then run the 10-attempt polling loop.  The second component is the trace of
sleep durations (one 3-second sleep precedes every poll issued). -/
def get_last_accessed (env : AdvisorEnv) :
    Except String (List ServiceLastAccessed) × List Nat :=
  match env.generate_job with
  | Except.error e => (Except.error e, [])
  | Except.ok none =>
    (Except.error "without job id while get last accessed details", [])
  | Except.ok (some _) => pollLoop env.polls 10 0

/-- `MetaData` from `src/analyzer.rs`. -/
structure MetaData where
  unused_access_age : Int
  owner_account : String

/-- The IAM SDK `User` fields read by the analyzer. -/
structure User where
  user_name : String
  arn : String
  create_date : Int
  password_last_used : Option Int
deriving DecidableEq

/-- The IAM SDK `LoginProfile` fields read by the analyzer. -/
structure LoginProfile where
  create_date : Int
deriving DecidableEq

/-- Outcome of `get_login_profile`: success (whose `login_profile` field is
optional), the `NoSuchEntity` service error, or any other error. -/
inductive LoginProfileResp
  | ok (login_profile : Option LoginProfile)
  | noSuchEntity
  | err (e : String)

/-- The IAM SDK `AccessKeyMetadata` fields read by the analyzer. -/
structure AccessKeyMetadata where
  access_key_id : Option String
  create_date : Option Int
deriving DecidableEq

/-- The IAM SDK `AccessKeyLastUsed` record (its `last_used_date` field). -/
structure AccessKeyLastUsed where
  last_used_date : Int
deriving DecidableEq

/-- Provider responses consumed while analyzing one user: the login profile
lookup, the access-key listing, the per-key `get_access_key_last_used` lookup
(the optional `access_key_last_used` field of its output), the advisor-job
environment, and the `analyzed_at` instant captured at the start of the
call (`OffsetDateTime::now_utc()` in `analyze_user`). -/
structure UserEnv where
  now : Int
  login_profile : LoginProfileResp
  access_keys : Except String (List AccessKeyMetadata)
  key_last_used : String → Except String (Option AccessKeyLastUsed)
  advisor : AdvisorEnv

/-- The access-key loop of `MetaData::analyze_user` (`src/analyzer.rs`,
lines 112-146): for each key whose `create_date` parses and is strictly more
than `unused_access_age` days old, and which has an id, fetch its last-used
record (propagating call errors) and, when `check_last_accessed_detail`
flags it, push one `UnusedIamUserAccessKey` finding for that key. -/
def analyzeKeys (md : MetaData) (now : Int) (user_arn : String)
    (env : UserEnv) : List AccessKeyMetadata → Except String (List Finding)
  | [] => Except.ok []
  | k :: ks =>
    if isSomeAnd k.create_date (fun created =>
        isSomeAnd (fromUnixTimestamp created) (fun c =>
          decide (now - c > daysSecs md.unused_access_age))) then
      match k.access_key_id with
      | some access_key_id =>
        match env.key_last_used access_key_id with
        | Except.error e => Except.error e
        | Except.ok last_access =>
          match analyzeKeys md now user_arn env ks with
          | Except.error e => Except.error e
          | Except.ok rest =>
            match check_last_accessed_detail now md.unused_access_age
                (last_access.map AccessKeyLastUsed.last_used_date) with
            | some detail =>
              Except.ok
                ({ resource := user_arn
                   resource_type := ResourceType.AwsIamUser
                   resource_owner_account := md.owner_account
                   id := ""
                   finding_details :=
                     [FindingDetails.UnusedIamUserAccessKeyDetails
                       { last_accessed := detail
                         access_key_id := access_key_id }]
                   finding_type := FindingType.UnusedIamUserAccessKey } :: rest)
            | none => Except.ok rest
      | none => analyzeKeys md now user_arn env ks
    else analyzeKeys md now user_arn env ks

/-- Whether one access key contributes a finding in `analyzeKeys` (given the
provider responses in `env`): created, in range, strictly older than the
threshold, has an id, its last-used lookup succeeds, and
`check_last_accessed_detail` flags it. -/
def keyFlagged (md : MetaData) (now : Int) (env : UserEnv)
    (k : AccessKeyMetadata) : Bool :=
  (isSomeAnd k.create_date (fun created =>
      isSomeAnd (fromUnixTimestamp created) (fun c =>
        decide (now - c > daysSecs md.unused_access_age)))) &&
    (match k.access_key_id with
     | none => false
     | some access_key_id =>
       match env.key_last_used access_key_id with
       | Except.error _ => false
       | Except.ok last_access =>
         (check_last_accessed_detail now md.unused_access_age
           (last_access.map AccessKeyLastUsed.last_used_date)).isSome)

/-- The `filter_map` of the permission check in `analyze_user`/`analyze_role`
(`src/analyzer.rs`): convert each advisor record and keep it unless
`all_used`. -/
def keptPermissionDetails (now : Int) (unused_access_age : Int)
    (svcs : List ServiceLastAccessed) : List FindingDetails :=
  svcs.filterMap fun s =>
    let details := UnusedPermissionDetails.ofService s
    if details.all_used now unused_access_age then none
    else some (FindingDetails.UnusedPermissionDetails details)

/-- The `UnusedPermission` finding emission shared by `analyze_user` and
`analyze_role`: emit one finding carrying the kept records, unless none were
kept. -/
def permissionFinding (md : MetaData) (now : Int) (arn : String)
    (rt : ResourceType) (svcs : List ServiceLastAccessed) : List Finding :=
  let details := keptPermissionDetails now md.unused_access_age svcs
  if details.isEmpty then []
  else
    [{ resource := arn
       resource_type := rt
       resource_owner_account := md.owner_account
       id := ""
       finding_details := details
       finding_type := FindingType.UnusedPermission }]

/-- `MetaData::analyze_user` from `src/analyzer.rs`: password check (a
`NoSuchEntity` login-profile lookup means no console password and is not an
error), access-key loop, then the advisor-driven permission check. -/
def analyze_user (md : MetaData) (user : User) (env : UserEnv) :
    Except String (List Finding) :=
  let now := env.now
  match env.login_profile with
  | LoginProfileResp.err e => Except.error e
  | lpr =>
    let login_profile : Option LoginProfile :=
      match lpr with
      | LoginProfileResp.ok p => p
      | _ => none
    let pwFindings : List Finding :=
      if isSomeAnd login_profile (fun lp =>
          isSomeAnd (fromUnixTimestamp lp.create_date) (fun created =>
            decide (now - created > daysSecs md.unused_access_age))) then
        match check_last_accessed_detail now md.unused_access_age
            user.password_last_used with
        | some detail =>
          [{ resource := user.arn
             resource_type := ResourceType.AwsIamUser
             resource_owner_account := md.owner_account
             id := ""
             finding_details :=
               [FindingDetails.UnusedIamUserPasswordDetails
                 { last_accessed := detail }]
             finding_type := FindingType.UnusedIamUserPassword }]
        | none => []
      else []
    match env.access_keys with
    | Except.error e => Except.error e
    | Except.ok access_keys =>
      match analyzeKeys md now user.arn env access_keys with
      | Except.error e => Except.error e
      | Except.ok keyFindings =>
        match (get_last_accessed env.advisor).1 with
        | Except.error e => Except.error e
        | Except.ok svcs =>
          Except.ok (pwFindings ++ keyFindings ++
            permissionFinding md now user.arn ResourceType.AwsIamUser svcs)

/-- The IAM SDK `RoleLastUsed` record (its optional `last_used_date`). -/
structure RoleLastUsed where
  last_used_date : Option Int
deriving DecidableEq

/-- The IAM SDK `Role` fields read by the analyzer. -/
structure Role where
  role_name : String
  arn : String
  path : String
  create_date : Int
  role_last_used : Option RoleLastUsed
deriving DecidableEq

/-- Provider responses consumed while analyzing one role: the advisor-job
environment and the `analyzed_at` instant captured at the start of the call. -/
structure RoleEnv where
  now : Int
  advisor : AdvisorEnv

/-- `MetaData::analyze_role` from `src/analyzer.rs`: evaluate
`role_last_used` and then run the same advisor-driven permission check as
`analyze_user`. -/
def analyze_role (md : MetaData) (role : Role) (env : RoleEnv) :
    Except String (List Finding) :=
  let now := env.now
  let roleFindings : List Finding :=
    match check_last_accessed_detail now md.unused_access_age
        (role.role_last_used.bind RoleLastUsed.last_used_date) with
    | some detail =>
      [{ resource := role.arn
         resource_type := ResourceType.AwsIamRole
         resource_owner_account := md.owner_account
         id := ""
         finding_details :=
           [FindingDetails.UnusedIamRoleDetails { last_accessed := detail }]
         finding_type := FindingType.UnusedIamRole }]
    | none => []
  match (get_last_accessed env.advisor).1 with
  | Except.error e => Except.error e
  | Except.ok svcs =>
    Except.ok (roleFindings ++
      permissionFinding md now role.arn ResourceType.AwsIamRole svcs)

/-- The per-identity creation-recency guard of `MetaData::analyze_account`
(`src/analyzer.rs`): skip the identity when its creation timestamp parses and
is strictly less than `unused_access_age` days before `now`. -/
def created_within_age (now : Int) (unused_access_age : Int)
    (create_date : Int) : Bool :=
  isSomeAnd (fromUnixTimestamp create_date) (fun created =>
    decide (now - created < daysSecs unused_access_age))

/-- The user loop of `MetaData::analyze_account`: skip too-young users,
analyze the rest in order, appending findings and propagating errors. -/
def analyzeUsersLoop (md : MetaData) (now : Int) :
    List (User × UserEnv) → Except String (List Finding)
  | [] => Except.ok []
  | (user, env) :: rest =>
    if created_within_age now md.unused_access_age user.create_date then
      analyzeUsersLoop md now rest
    else
      match analyze_user md user env with
      | Except.error e => Except.error e
      | Except.ok fs =>
        match analyzeUsersLoop md now rest with
        | Except.error e => Except.error e
        | Except.ok more => Except.ok (fs ++ more)

/-- The role loop of `MetaData::analyze_account`: skip too-young roles,
analyze the rest in order, appending findings and propagating errors. -/
def analyzeRolesLoop (md : MetaData) (now : Int) :
    List (Role × RoleEnv) → Except String (List Finding)
  | [] => Except.ok []
  | (role, env) :: rest =>
    if created_within_age now md.unused_access_age role.create_date then
      analyzeRolesLoop md now rest
    else
      match analyze_role md role env with
      | Except.error e => Except.error e
      | Except.ok fs =>
        match analyzeRolesLoop md now rest with
        | Except.error e => Except.error e
        | Except.ok more => Except.ok (fs ++ more)

/-- `MetaData::analyze_account` from `src/analyzer.rs`, taking the already
paginated user and role listings (each paired with the provider responses its
analysis will consume): process all users, then all roles, concatenating
findings in order; any error aborts the run. -/
def analyze_account (md : MetaData) (now : Int)
    (users : List (User × UserEnv)) (roles : List (Role × RoleEnv)) :
    Except String (List Finding) :=
  match analyzeUsersLoop md now users with
  | Except.error e => Except.error e
  | Except.ok userFindings =>
    match analyzeRolesLoop md now roles with
    | Except.error e => Except.error e
    | Except.ok roleFindings => Except.ok (userFindings ++ roleFindings)

/-- The `FindingType` that a `FindingDetails` variant belongs with. -/
def detailType : FindingDetails → FindingType
  | FindingDetails.UnusedIamRoleDetails _ => FindingType.UnusedIamRole
  | FindingDetails.UnusedIamUserAccessKeyDetails _ =>
    FindingType.UnusedIamUserAccessKey
  | FindingDetails.UnusedIamUserPasswordDetails _ =>
    FindingType.UnusedIamUserPassword
  | FindingDetails.UnusedPermissionDetails _ => FindingType.UnusedPermission

/-- Structural well-formedness of an emitted finding: non-empty details, each
detail's variant matching the finding type, singleton details for the three
non-permission types, and the expected resource type. -/
def WellFormed (f : Finding) (rt : ResourceType) : Prop :=
  f.finding_details ≠ [] ∧
  (∀ d ∈ f.finding_details, detailType d = f.finding_type) ∧
  (f.finding_type ≠ FindingType.UnusedPermission →
    f.finding_details.length = 1) ∧
  f.resource_type = rt

/-! Concrete inputs used by counterexamples and witnesses.  The shared instant
is `1700000000` (2023-11-14); identities are created at `1500000000`
(2017-07-14), far beyond the 90-day window. -/

/-- A 90-day configuration for account `111122223333`. -/
def cMd : MetaData := ⟨90, "111122223333"⟩

/-- An advisor environment whose job is granted an id and completes on the
first poll with no service records. -/
def cAdvisorDone : AdvisorEnv :=
  ⟨Except.ok (some "job-0"), fun _ => PollResp.ok JobStatusType.Completed []⟩

/-- An advisor environment whose job is granted an id and reports `Failed` on
every poll. -/
def cAdvisorFailed : AdvisorEnv :=
  ⟨Except.ok (some "job-f"), fun _ => PollResp.ok JobStatusType.Failed []⟩

/-- A user owning two long-unused access keys. -/
def c2User : User :=
  ⟨"alice", "arn:aws:iam::111122223333:user/alice", 1500000000, none⟩

/-- Responses for `c2User`: no login profile; two keys created at
`1500000000`, each last used at `1600000000` (about 1157 days before the
analysis instant). -/
def c2Env : UserEnv :=
  { now := 1700000000
    login_profile := LoginProfileResp.noSuchEntity
    access_keys := Except.ok
      [⟨some "AKIA1", some 1500000000⟩, ⟨some "AKIA2", some 1500000000⟩]
    key_last_used := fun _ => Except.ok (some ⟨1600000000⟩)
    advisor := cAdvisorDone }

/-- A user owning one old access key whose last-used lookup returns the
epoch-zero sentinel. -/
def c4User : User :=
  ⟨"bob", "arn:aws:iam::111122223333:user/bob", 1500000000, none⟩

/-- Responses for `c4User`: one key created at `1500000000` whose
`get_access_key_last_used` record carries `last_used_date = 0`. -/
def c4Env : UserEnv :=
  { now := 1700000000
    login_profile := LoginProfileResp.noSuchEntity
    access_keys := Except.ok [⟨some "AKIA3", some 1500000000⟩]
    key_last_used := fun _ => Except.ok (some ⟨0⟩)
    advisor := cAdvisorDone }

/-- A service-linked role (path prefix `/aws-service-role/`), created long
ago and never assumed. -/
def c5Role : Role :=
  ⟨"AWSServiceRoleForSupport",
    "arn:aws:iam::111122223333:role/aws-service-role/support.amazonaws.com/AWSServiceRoleForSupport",
    "/aws-service-role/support.amazonaws.com/", 1500000000, none⟩

/-- Responses for `c5Role`: advisor job completes at once with no records. -/
def c5REnv : RoleEnv := ⟨1700000000, cAdvisorDone⟩

/-- A service record with no service-level and no action-level usage data. -/
def c7Svc : ServiceLastAccessed := ⟨"s3", none, none⟩

/-- The `UnusedPermission` finding emitted for `c7Svc`. -/
def c7F : Finding :=
  ⟨"arn:aws:iam::111122223333:user/alice", ResourceType.AwsIamUser,
    "111122223333", "",
    [FindingDetails.UnusedPermissionDetails ⟨none, "s3", none⟩],
    FindingType.UnusedPermission⟩

/-- A user created 1000 seconds before the analysis instant. -/
def c9User : User :=
  ⟨"carol", "arn:aws:iam::111122223333:user/carol", 1699999000, none⟩

/-- Responses for `c9User` (never consulted, since the user is skipped). -/
def c9UEnv : UserEnv :=
  { now := 1700000000
    login_profile := LoginProfileResp.noSuchEntity
    access_keys := Except.ok []
    key_last_used := fun _ => Except.ok none
    advisor := cAdvisorDone }

/-- A role created 1000 seconds before the analysis instant. -/
def c9Role : Role :=
  ⟨"newrole", "arn:aws:iam::111122223333:role/newrole", "/", 1699999000, none⟩

/-- Responses for `c9Role` (never consulted, since the role is skipped). -/
def c9REnv : RoleEnv := ⟨1700000000, cAdvisorDone⟩

/-- An old, never-assumed role with default path. -/
def c10Role : Role :=
  ⟨"oldrole", "arn:aws:iam::111122223333:role/oldrole", "/", 1500000000, none⟩

/-- Responses for `c10Role`. -/
def c10REnv : RoleEnv := ⟨1700000000, cAdvisorDone⟩

/-- The `UnusedIamRole` finding emitted for `c10Role`. -/
def c10F : Finding :=
  ⟨"arn:aws:iam::111122223333:role/oldrole", ResourceType.AwsIamRole,
    "111122223333", "", [FindingDetails.UnusedIamRoleDetails ⟨none⟩],
    FindingType.UnusedIamRole⟩



/-! ### Polling-loop lemmas -/

theorem pollLoop_zero (polls : Nat → PollResp) (i : Nat) :
    pollLoop polls 0 i = (Except.error "timeout", []) := rfl

theorem pollLoop_succ_err (polls : Nat → PollResp) (n i : Nat) (e : String)
    (h : polls i = PollResp.err e) :
    pollLoop polls (n + 1) i = (Except.error e, [3]) := by
  simp only [pollLoop, h]

theorem pollLoop_succ_completed (polls : Nat → PollResp) (n i : Nat)
    (svcs : List ServiceLastAccessed)
    (h : polls i = PollResp.ok JobStatusType.Completed svcs) :
    pollLoop polls (n + 1) i = (Except.ok svcs, [3]) := by
  simp only [pollLoop, h]

theorem pollLoop_succ_inprogress (polls : Nat → PollResp) (n i : Nat)
    (svcs : List ServiceLastAccessed)
    (h : polls i = PollResp.ok JobStatusType.InProgress svcs) :
    pollLoop polls (n + 1) i =
      ((pollLoop polls n (i + 1)).1, 3 :: (pollLoop polls n (i + 1)).2) := by
  simp only [pollLoop, h]

theorem pollLoop_succ_failed (polls : Nat → PollResp) (n i : Nat)
    (svcs : List ServiceLastAccessed)
    (h : polls i = PollResp.ok JobStatusType.Failed svcs) :
    pollLoop polls (n + 1) i =
      ((pollLoop polls n (i + 1)).1, 3 :: (pollLoop polls n (i + 1)).2) := by
  simp only [pollLoop, h]

theorem pollLoop_sleeps (polls : Nat → PollResp) :
    ∀ n i, (pollLoop polls n i).2.length ≤ n ∧
      ∀ s ∈ (pollLoop polls n i).2, s = 3 := by
  intro n
  induction n with
  | zero => intro i; exact ⟨Nat.le_refl 0, by simp [pollLoop_zero]⟩
  | succ n ih =>
    intro i
    cases h : polls i with
    | err e => rw [pollLoop_succ_err polls n i e h]; simp
    | ok status svcs =>
      cases status with
      | Completed => rw [pollLoop_succ_completed polls n i svcs h]; simp
      | InProgress =>
        rw [pollLoop_succ_inprogress polls n i svcs h]
        refine ⟨by simpa using (ih (i + 1)).1, ?_⟩
        intro s hs
        rcases List.mem_cons.mp hs with h3 | h3
        · exact h3
        · exact (ih (i + 1)).2 s h3
      | Failed =>
        rw [pollLoop_succ_failed polls n i svcs h]
        refine ⟨by simpa using (ih (i + 1)).1, ?_⟩
        intro s hs
        rcases List.mem_cons.mp hs with h3 | h3
        · exact h3
        · exact (ih (i + 1)).2 s h3
      | Other v =>
        have heq : pollLoop polls (n + 1) i =
            ((pollLoop polls n (i + 1)).1, 3 :: (pollLoop polls n (i + 1)).2) := by
          simp only [pollLoop, h]
        rw [heq]
        refine ⟨by simpa using (ih (i + 1)).1, ?_⟩
        intro s hs
        rcases List.mem_cons.mp hs with h3 | h3
        · exact h3
        · exact (ih (i + 1)).2 s h3

theorem pollLoop_all_inprogress (polls : Nat → PollResp) :
    ∀ n i, (∀ j, j < n → polls (i + j) = PollResp.ok JobStatusType.InProgress []) →
      pollLoop polls n i = (Except.error "timeout", List.replicate n 3) := by
  intro n
  induction n with
  | zero => intro i _; simp [pollLoop_zero]
  | succ n ih =>
    intro i h
    have h0 : polls i = PollResp.ok JobStatusType.InProgress [] := by
      simpa using h 0 (Nat.succ_pos n)
    rw [pollLoop_succ_inprogress polls n i [] h0]
    have hrest : pollLoop polls n (i + 1) =
        (Except.error "timeout", List.replicate n 3) := by
      apply ih
      intro j hj
      have := h (j + 1) (Nat.succ_lt_succ hj)
      simpa [Nat.add_assoc, Nat.add_comm 1 j] using this
    rw [hrest]
    simp [List.replicate_succ]

theorem pollLoop_completes (polls : Nat → PollResp)
    (svcs : List ServiceLastAccessed) :
    ∀ k n i, (∀ j, j < k → polls (i + j) = PollResp.ok JobStatusType.InProgress []) →
      polls (i + k) = PollResp.ok JobStatusType.Completed svcs → k < n →
      pollLoop polls n i = (Except.ok svcs, List.replicate (k + 1) 3) := by
  intro k
  induction k with
  | zero =>
    intro n i _ hc hk
    obtain ⟨m, rfl⟩ : ∃ m, n = m + 1 := ⟨n - 1, by omega⟩
    rw [pollLoop_succ_completed polls m i svcs (by simpa using hc)]
    simp [List.replicate_succ]
  | succ k ih =>
    intro n i h hc hk
    obtain ⟨m, rfl⟩ : ∃ m, n = m + 1 := ⟨n - 1, by omega⟩
    have h0 : polls i = PollResp.ok JobStatusType.InProgress [] := by
      simpa using h 0 (Nat.succ_pos k)
    rw [pollLoop_succ_inprogress polls m i [] h0]
    have hrest : pollLoop polls m (i + 1) =
        (Except.ok svcs, List.replicate (k + 1) 3) := by
      apply ih
      · intro j hj
        have := h (j + 1) (Nat.succ_lt_succ hj)
        simpa [Nat.add_assoc, Nat.add_comm 1 j] using this
      · have := hc
        simpa [Nat.add_assoc, Nat.add_comm 1 k] using this
      · omega
    rw [hrest]
    simp [List.replicate_succ]

theorem pollLoop_congr (polls polls₂ : Nat → PollResp) :
    ∀ n i, (∀ j, i ≤ j → j < i + n → polls j = polls₂ j) →
      pollLoop polls n i = pollLoop polls₂ n i := by
  intro n
  induction n with
  | zero => intro i _; rfl
  | succ n ih =>
    intro i h
    have h0 : polls i = polls₂ i := h i (Nat.le_refl i) (by omega)
    have hrec : pollLoop polls n (i + 1) = pollLoop polls₂ n (i + 1) := by
      apply ih
      intro j hj₁ hj₂
      exact h j (by omega) (by omega)
    cases h2 : polls₂ i with
    | err e =>
      rw [pollLoop_succ_err polls n i e (h0.trans h2),
        pollLoop_succ_err polls₂ n i e h2]
    | ok status svcs =>
      cases status with
      | Completed =>
        rw [pollLoop_succ_completed polls n i svcs (h0.trans h2),
          pollLoop_succ_completed polls₂ n i svcs h2]
      | InProgress =>
        rw [pollLoop_succ_inprogress polls n i svcs (h0.trans h2),
          pollLoop_succ_inprogress polls₂ n i svcs h2, hrec]
      | Failed =>
        rw [pollLoop_succ_failed polls n i svcs (h0.trans h2),
          pollLoop_succ_failed polls₂ n i svcs h2, hrec]
      | Other v =>
        have heq : ∀ (ps : Nat → PollResp), ps i = PollResp.ok (JobStatusType.Other v) svcs →
            pollLoop ps (n + 1) i =
              ((pollLoop ps n (i + 1)).1, 3 :: (pollLoop ps n (i + 1)).2) := by
          intro ps hps
          simp only [pollLoop, hps]
        rw [heq polls (h0.trans h2), heq polls₂ h2, hrec]

/-- Claim C6: once a job id is granted, the driver performs at most 10 status
polls, each preceded by a 3-second wait; a job that reports `InProgress` on
the first 9 polls and `Completed` on the 10th succeeds with its records and a
trace of exactly ten 3-second waits; a job reporting `InProgress` on all 10
polls fails with the timeout error after exactly ten polls; and the outcome
depends only on the first 10 poll answers, so an 11th poll is never
issued. -/
theorem c6_poll_protocol (polls : Nat → PollResp) (jid : String)
    (svcs : List ServiceLastAccessed) :
    ((get_last_accessed ⟨Except.ok (some jid), polls⟩).2.length ≤ 10 ∧
      ∀ s ∈ (get_last_accessed ⟨Except.ok (some jid), polls⟩).2, s = 3) ∧
    ((∀ i, i < 9 → polls i = PollResp.ok JobStatusType.InProgress []) →
      polls 9 = PollResp.ok JobStatusType.Completed svcs →
      get_last_accessed ⟨Except.ok (some jid), polls⟩ =
        (Except.ok svcs, List.replicate 10 3)) ∧
    ((∀ i, i < 10 → polls i = PollResp.ok JobStatusType.InProgress []) →
      get_last_accessed ⟨Except.ok (some jid), polls⟩ =
        (Except.error "timeout", List.replicate 10 3)) ∧
    (∀ polls₂ : Nat → PollResp, (∀ i, i < 10 → polls i = polls₂ i) →
      get_last_accessed ⟨Except.ok (some jid), polls⟩ =
        get_last_accessed ⟨Except.ok (some jid), polls₂⟩) := by
  have hga : get_last_accessed ⟨Except.ok (some jid), polls⟩ =
      pollLoop polls 10 0 := rfl
  refine ⟨?_, ?_, ?_, ?_⟩
  · rw [hga]; exact pollLoop_sleeps polls 10 0
  · intro h hc
    rw [hga]
    exact pollLoop_completes polls svcs 9 10 0
      (fun j hj => by simpa using h j hj) (by simpa using hc) (by omega)
  · intro h
    rw [hga]
    exact pollLoop_all_inprogress polls 10 0 (fun j hj => by simpa using h j hj)
  · intro polls₂ h
    have : get_last_accessed ⟨Except.ok (some jid), polls₂⟩ =
        pollLoop polls₂ 10 0 := rfl
    rw [hga, this]
    exact pollLoop_congr polls polls₂ 10 0
      (fun j hj₁ hj₂ => h j (by omega))

/-- Witness for `c6_poll_protocol`: a job stuck `InProgress` for every poll
times out after exactly ten 3-second waits. -/
theorem c6_poll_protocol_witness :
    get_last_accessed
        ⟨Except.ok (some "job-w"),
          fun _ => PollResp.ok JobStatusType.InProgress []⟩ =
      (Except.error "timeout", List.replicate 10 3) :=
  (c6_poll_protocol (fun _ => PollResp.ok JobStatusType.InProgress [])
    "job-w" []).2.2.1 (fun _ _ => rfl)

/-- Claim C3 (code bug): the source's non-`Completed`/non-`InProgress` match
arm builds `anyhow!("job status invalid?")` as an expression statement and
discards it without returning, so a job that reports `Failed` on every poll
is not aborted at the first poll with a distinct descriptive error; the
driver keeps polling all 10 times and then fails with the generic timeout
error. -/
theorem c3_failed_status_keeps_polling :
    get_last_accessed cAdvisorFailed =
      (Except.error "timeout", List.replicate 10 3) := by
  rfl

/-! ### Age-threshold claims -/

/-- Claim C1 (counterexample): at `analyzed_at` exactly 90 days after epoch,
a last-used timestamp of epoch (so exactly `D = 90` days old, with
`now - T > D` days false) is still flagged unused by
`check_last_accessed_detail` — the evaluation used for password, access-key
and role signals — while `duration_gt_age` (service/action signals) treats
the same input as used.  So flagging is not `now - T > D` for every signal
kind, and a signal exactly `D` days old is not uniformly "used". -/
theorem c1_boundary_counterexample :
    (check_last_accessed_detail (daysSecs 90) 90 (some 0)).isSome = true ∧
    duration_gt_age (some 0) (daysSecs 90) 90 = false ∧
    ¬(daysSecs 90 - 0 > daysSecs 90) := by
  refine ⟨by decide, by decide, by decide⟩

/-- Claim C1 (amended): for an in-range present timestamp `T`,
`duration_gt_age` (service-level and action-level signals) flags unused
exactly when `now - T > D` days (strict), but `check_last_accessed_detail`
(password, access-key and role last-used signals) flags unused exactly when
`now - T ≥ D` days, so the two comparisons differ at the boundary: a signal
exactly `D` days old is used at service/action level and unused for the
other three kinds. -/
theorem c1_amended_comparisons (now D T : Int)
    (h₁ : unixMin ≤ T) (h₂ : T ≤ unixMax) :
    (duration_gt_age (some T) now D = true ↔ now - T > daysSecs D) ∧
    ((check_last_accessed_detail now D (some T)).isSome = true ↔
      now - T ≥ daysSecs D) := by
  have hr : fromUnixTimestamp T = some T := by
    simp [fromUnixTimestamp, h₁, h₂]
  constructor
  · simp [duration_gt_age, isSomeAnd, hr]
  · simp only [check_last_accessed_detail, isSomeAnd, hr]
    by_cases h : now - T < daysSecs D
    · simp [h]
    · simp [h]
      omega

/-- Witness for `c1_amended_comparisons` at `now = 90` days after epoch,
`D = 90`, `T = 0`. -/
theorem c1_amended_comparisons_witness :
    (unixMin ≤ (0 : Int) ∧ (0 : Int) ≤ unixMax) ∧
    ((duration_gt_age (some 0) (daysSecs 90) 90 = true ↔
        daysSecs 90 - 0 > daysSecs 90) ∧
      ((check_last_accessed_detail (daysSecs 90) 90 (some 0)).isSome = true ↔
        daysSecs 90 - 0 ≥ daysSecs 90)) :=
  ⟨⟨by decide, by decide⟩,
    c1_amended_comparisons (daysSecs 90) 90 0 (by decide) (by decide)⟩

/-- Claim C8: an absent (`none`) last-used timestamp is always evaluated as
unused, by both evaluation paths, for every analyzed-at instant and
threshold; and the finding-detail payload produced for it is `none`
(serialized as null), never a fabricated timestamp. -/
theorem c8_absent_timestamp_unused (now D : Int) :
    duration_gt_age none now D = true ∧
    check_last_accessed_detail now D none = some none :=
  ⟨rfl, rfl⟩

/-! ### Access-key claims -/

/-- Claim C2 (counterexample): a user with two unused access keys receives
two separate `UnusedIamUserAccessKey` findings, one per key, each with a
single detail — not one finding carrying one detail per unused key. -/
theorem c2_one_finding_per_key_counterexample :
    analyze_user cMd c2User c2Env = Except.ok
      [{ resource := "arn:aws:iam::111122223333:user/alice"
         resource_type := ResourceType.AwsIamUser
         resource_owner_account := "111122223333"
         id := ""
         finding_details :=
           [FindingDetails.UnusedIamUserAccessKeyDetails
             ⟨some 1600000000, "AKIA1"⟩]
         finding_type := FindingType.UnusedIamUserAccessKey },
       { resource := "arn:aws:iam::111122223333:user/alice"
         resource_type := ResourceType.AwsIamUser
         resource_owner_account := "111122223333"
         id := ""
         finding_details :=
           [FindingDetails.UnusedIamUserAccessKeyDetails
             ⟨some 1600000000, "AKIA2"⟩]
         finding_type := FindingType.UnusedIamUserAccessKey }] ∧
    (((analyze_user cMd c2User c2Env).toOption.getD []).filter
      (fun f => decide (f.finding_type = FindingType.UnusedIamUserAccessKey))).length = 2 := by
  exact ⟨by rfl, by rfl⟩

theorem analyzeKeys_ok (md : MetaData) (now : Int) (arn : String)
    (env : UserEnv) :
    ∀ ks l, analyzeKeys md now arn env ks = Except.ok l →
      l.length = (ks.filter (keyFlagged md now env)).length ∧
      ∀ f ∈ l, f.finding_type = FindingType.UnusedIamUserAccessKey ∧
        f.finding_details.length = 1 ∧
        (∀ d ∈ f.finding_details,
          detailType d = FindingType.UnusedIamUserAccessKey) ∧
        f.resource_type = ResourceType.AwsIamUser ∧ f.resource = arn := by
  intro ks
  induction ks with
  | nil =>
    intro l h
    simp only [analyzeKeys] at h
    injection h with h
    subst h
    simp
  | cons k ks ih =>
    intro l h
    simp only [analyzeKeys] at h
    cases hcd : isSomeAnd k.create_date (fun created =>
        isSomeAnd (fromUnixTimestamp created) (fun c =>
          decide (now - c > daysSecs md.unused_access_age))) with
    | false =>
      rw [hcd] at h
      simp only [Bool.false_eq_true, if_false] at h
      have hflag : keyFlagged md now env k = false := by
        simp [keyFlagged, hcd]
      simp only [List.filter_cons, hflag, Bool.false_eq_true, if_false]
      exact ih l h
    | true =>
      rw [hcd] at h
      simp only [if_true] at h
      cases hid : k.access_key_id with
      | none =>
        simp only [hid] at h
        have hflag : keyFlagged md now env k = false := by
          simp [keyFlagged, hid]
        simp only [List.filter_cons, hflag, Bool.false_eq_true, if_false]
        exact ih l h
      | some kid =>
        simp only [hid] at h
        cases hlu : env.key_last_used kid with
        | error e => simp only [hlu] at h; simp at h
        | ok lu =>
          simp only [hlu] at h
          cases hrec : analyzeKeys md now arn env ks with
          | error e => simp only [hrec] at h; simp at h
          | ok rest =>
            simp only [hrec] at h
            cases hck : check_last_accessed_detail now md.unused_access_age
                (lu.map AccessKeyLastUsed.last_used_date) with
            | none =>
              simp only [hck] at h
              injection h with h
              subst h
              have hflag : keyFlagged md now env k = false := by
                simp [keyFlagged, hid, hlu, hck]
              simp only [List.filter_cons, hflag, Bool.false_eq_true, if_false]
              exact ih rest hrec
            | some detail =>
              simp only [hck] at h
              injection h with h
              subst h
              have hflag : keyFlagged md now env k = true := by
                simp [keyFlagged, hcd, hid, hlu, hck]
              simp only [List.filter_cons, hflag, if_true]
              obtain ⟨ihl, ihm⟩ := ih rest hrec
              constructor
              · simp [ihl]
              · intro f hf
                rcases List.mem_cons.mp hf with hf | hf
                · subst hf
                  refine ⟨rfl, rfl, ?_, rfl, rfl⟩
                  intro d hd
                  rcases List.mem_cons.mp hd with hd | hd
                  · subst hd; rfl
                  · simp at hd
                · exact ihm f hf

/-- Claim C2 (amended): the assembler emits one `UnusedIamUserAccessKey`
Finding per unused access key of a user — each carrying exactly one
`UnusedIamUserAccessKeyDetails`, for that key — rather than a single Finding
per user: on success the key loop returns exactly as many such findings as
there are keys flagged unused. -/
theorem c2_amended_per_key_findings (md : MetaData) (now : Int) (arn : String)
    (env : UserEnv) (ks : List AccessKeyMetadata) (l : List Finding)
    (h : analyzeKeys md now arn env ks = Except.ok l) :
    l.length = (ks.filter (keyFlagged md now env)).length ∧
    ∀ f ∈ l, f.finding_type = FindingType.UnusedIamUserAccessKey ∧
      f.finding_details.length = 1 :=
  let r := analyzeKeys_ok md now arn env ks l h
  ⟨r.1, fun f hf => ⟨(r.2 f hf).1, (r.2 f hf).2.1⟩⟩

/-- Witness for `c2_amended_per_key_findings` on `c2User`'s two unused
keys. -/
theorem c2_amended_per_key_findings_witness :
    analyzeKeys cMd 1700000000 c2User.arn c2Env
        [⟨some "AKIA1", some 1500000000⟩, ⟨some "AKIA2", some 1500000000⟩] =
      Except.ok
        [{ resource := "arn:aws:iam::111122223333:user/alice"
           resource_type := ResourceType.AwsIamUser
           resource_owner_account := "111122223333"
           id := ""
           finding_details :=
             [FindingDetails.UnusedIamUserAccessKeyDetails
               ⟨some 1600000000, "AKIA1"⟩]
           finding_type := FindingType.UnusedIamUserAccessKey },
         { resource := "arn:aws:iam::111122223333:user/alice"
           resource_type := ResourceType.AwsIamUser
           resource_owner_account := "111122223333"
           id := ""
           finding_details :=
             [FindingDetails.UnusedIamUserAccessKeyDetails
               ⟨some 1600000000, "AKIA2"⟩]
           finding_type := FindingType.UnusedIamUserAccessKey }] ∧
    (2 : Nat) =
      ([(⟨some "AKIA1", some 1500000000⟩ : AccessKeyMetadata),
        ⟨some "AKIA2", some 1500000000⟩].filter
          (keyFlagged cMd 1700000000 c2Env)).length :=
  ⟨rfl,
    (c2_amended_per_key_findings cMd 1700000000 c2User.arn c2Env
      [⟨some "AKIA1", some 1500000000⟩, ⟨some "AKIA2", some 1500000000⟩]
      _ rfl).1⟩

/-- Claim C4 (counterexample): an access key whose `get_access_key_last_used`
record carries the epoch-zero sentinel is not normalized — the emitted
finding's detail carries `some 0` (the epoch-zero timestamp), not a null
`last_accessed`. -/
theorem c4_epoch_zero_counterexample :
    analyze_user cMd c4User c4Env = Except.ok
      [{ resource := "arn:aws:iam::111122223333:user/bob"
         resource_type := ResourceType.AwsIamUser
         resource_owner_account := "111122223333"
         id := ""
         finding_details :=
           [FindingDetails.UnusedIamUserAccessKeyDetails ⟨some 0, "AKIA3"⟩]
         finding_type := FindingType.UnusedIamUserAccessKey }] := by
  rfl

/-- Claim C4 (amended): the epoch-zero access-key last-used sentinel is not
normalized to "absent": it reaches the age evaluation as a real timestamp,
so it is compared like any date — treated as recent use (no finding) when
the analysis instant is less than `D` days after epoch, and otherwise flagged
with a detail payload carrying the epoch-zero timestamp itself, never
null. -/
theorem c4_amended_no_normalization (now D : Int) :
    check_last_accessed_detail now D (some 0) =
      if now - 0 < daysSecs D then none else some (some 0) := by
  have h0 : fromUnixTimestamp 0 = some 0 := by decide
  simp only [check_last_accessed_detail, isSomeAnd, h0]
  by_cases h : now - 0 < daysSecs D
  · simp [h]
  · simp [h]

/-! ### Role claims -/

/-- Claim C5 (counterexample): a service-linked role (path prefix
`/aws-service-role/`) old enough and never assumed is analyzed like any
other role, and the returned result list contains a Finding whose resource is
that role's ARN — the code never filters roles by path. -/
theorem c5_service_linked_counterexample :
    c5Role.path = "/aws-service-role/support.amazonaws.com/" ∧
    analyze_account cMd 1700000000 [] [(c5Role, c5REnv)] = Except.ok
      [{ resource :=
           "arn:aws:iam::111122223333:role/aws-service-role/support.amazonaws.com/AWSServiceRoleForSupport"
         resource_type := ResourceType.AwsIamRole
         resource_owner_account := "111122223333"
         id := ""
         finding_details := [FindingDetails.UnusedIamRoleDetails ⟨none⟩]
         finding_type := FindingType.UnusedIamRole }] :=
  ⟨rfl, rfl⟩

theorem analyzeRolesLoop_path (md : MetaData) (now : Int)
    (rs₁ : List (Role × RoleEnv)) (r : Role) (env : RoleEnv) (p : String)
    (rs₂ : List (Role × RoleEnv)) :
    analyzeRolesLoop md now (rs₁ ++ ({ r with path := p }, env) :: rs₂) =
      analyzeRolesLoop md now (rs₁ ++ (r, env) :: rs₂) := by
  induction rs₁ with
  | nil => rfl
  | cons x rs₁ ih =>
    obtain ⟨xr, xe⟩ := x
    simp only [List.cons_append, analyzeRolesLoop, List.append_eq]
    rw [ih]

/-- Claim C5 (amended): the analysis never consults a role's path, so rather
than being excluded, a service-linked role is treated exactly like a role
with any other path — changing the path changes neither `analyze_role`'s
output nor `analyze_account`'s. -/
theorem c5_amended_path_never_consulted :
    (∀ (md : MetaData) (r : Role) (env : RoleEnv) (p : String),
      analyze_role md { r with path := p } env = analyze_role md r env) ∧
    (∀ (md : MetaData) (now : Int) (users : List (User × UserEnv))
      (rs₁ rs₂ : List (Role × RoleEnv)) (r : Role) (env : RoleEnv)
      (p : String),
      analyze_account md now users (rs₁ ++ ({ r with path := p }, env) :: rs₂) =
        analyze_account md now users (rs₁ ++ (r, env) :: rs₂)) := by
  constructor
  · intro md r env p
    rfl
  · intro md now users rs₁ rs₂ r env p
    unfold analyze_account
    rw [analyzeRolesLoop_path md now rs₁ r env p rs₂]

/-! ### Permission-record claims -/

/-- Claim C7: a converted service record is kept (not `all_used`) exactly
when its service-level timestamp is unused or at least one tracked action's
timestamp is unused; an `UnusedPermission` finding is emitted exactly when at
least one record of the advisor output is kept; and every emitted
`UnusedPermission` finding carries a non-empty details list. -/
theorem c7_kept_iff_and_emission (md : MetaData) (now : Int) (arn : String)
    (rt : ResourceType) (svcs : List ServiceLastAccessed) :
    (∀ s : ServiceLastAccessed,
      (UnusedPermissionDetails.ofService s).all_used now md.unused_access_age
          = false ↔
        (duration_gt_age s.last_authenticated now md.unused_access_age = true ∨
          ∃ a ∈ s.tracked_actions_last_accessed.getD [],
            duration_gt_age a.last_accessed_time now md.unused_access_age
              = true)) ∧
    (permissionFinding md now arn rt svcs ≠ [] ↔
      ∃ s ∈ svcs,
        (UnusedPermissionDetails.ofService s).all_used now md.unused_access_age
          = false) ∧
    (∀ f ∈ permissionFinding md now arn rt svcs,
      f.finding_details ≠ [] ∧
        f.finding_type = FindingType.UnusedPermission) := by
  have hkept : keptPermissionDetails now md.unused_access_age svcs = [] ↔
      ∀ s ∈ svcs,
        (UnusedPermissionDetails.ofService s).all_used now md.unused_access_age
          = true := by
    simp only [keptPermissionDetails, List.filterMap_eq_nil_iff]
    constructor
    · intro h s hs
      have hg := h s hs
      by_contra hall
      rw [Bool.not_eq_true] at hall
      simp [hall] at hg
    · intro h s hs
      simp [h s hs]
  refine ⟨?_, ?_, ?_⟩
  · intro s
    cases hta : s.tracked_actions_last_accessed with
    | none =>
      simp [UnusedPermissionDetails.all_used,
        UnusedPermissionDetails.any_not_used,
        UnusedPermissionDetails.ofService, isSomeAnd, hta]
    | some l =>
      simp [UnusedPermissionDetails.all_used,
        UnusedPermissionDetails.any_not_used,
        UnusedPermissionDetails.ofService, isSomeAnd, hta,
        List.any_map, List.any_eq_true, Function.comp,
        UnusedAction.ofTracked]
      cases hA : duration_gt_age s.last_authenticated now
          md.unused_access_age <;> simp [hA]
  · by_cases hk : keptPermissionDetails now md.unused_access_age svcs = []
    · have hall := hkept.mp hk
      simp only [permissionFinding, hk]
      constructor
      · intro hne
        simp at hne
      · rintro ⟨s, hs, hfalse⟩
        rw [hall s hs] at hfalse
        cases hfalse
    · simp only [permissionFinding]
      have hie : (keptPermissionDetails now md.unused_access_age svcs).isEmpty
          = false := by
        rw [List.isEmpty_eq_false_iff_exists_mem]
        rcases List.exists_mem_of_ne_nil _ hk with ⟨x, hx⟩
        exact ⟨x, hx⟩
      rw [hie]
      constructor
      · intro _
        by_contra hno
        push_neg at hno
        have : ∀ s ∈ svcs,
            (UnusedPermissionDetails.ofService s).all_used now
              md.unused_access_age = true := by
          intro s hs
          have := hno s hs
          revert this
          cases (UnusedPermissionDetails.ofService s).all_used now
              md.unused_access_age <;> simp
        exact hk (hkept.mpr this)
      · intro _
        simp
  · intro f hf
    simp only [permissionFinding] at hf
    by_cases hk : keptPermissionDetails now md.unused_access_age svcs = []
    · rw [hk] at hf
      simp at hf
    · have hie : (keptPermissionDetails now md.unused_access_age svcs).isEmpty
          = false := by
        rw [List.isEmpty_eq_false_iff_exists_mem]
        rcases List.exists_mem_of_ne_nil _ hk with ⟨x, hx⟩
        exact ⟨x, hx⟩
      rw [hie] at hf
      simp at hf
      subst hf
      exact ⟨hk, rfl⟩

/-- Witness for `c7_kept_iff_and_emission`: the finding emitted for the
never-used service record `c7Svc` has a non-empty details list. -/
theorem c7_kept_iff_and_emission_witness :
    c7F.finding_details ≠ [] ∧
    c7F.finding_type = FindingType.UnusedPermission :=
  (c7_kept_iff_and_emission cMd 1700000000
    "arn:aws:iam::111122223333:user/alice" ResourceType.AwsIamUser
    [c7Svc]).2.2 c7F (by decide)

/-! ### Creation-cutoff claims -/

theorem analyzeUsersLoop_skip (md : MetaData) (now : Int)
    (us₁ : List (User × UserEnv)) (u : User) (uenv : UserEnv)
    (us₂ : List (User × UserEnv))
    (h : created_within_age now md.unused_access_age u.create_date = true) :
    analyzeUsersLoop md now (us₁ ++ (u, uenv) :: us₂) =
      analyzeUsersLoop md now (us₁ ++ us₂) := by
  induction us₁ with
  | nil =>
    simp only [List.nil_append, analyzeUsersLoop, h, if_true]
  | cons x us₁ ih =>
    obtain ⟨xu, xe⟩ := x
    simp only [List.cons_append, analyzeUsersLoop, List.append_eq]
    rw [ih]

theorem analyzeRolesLoop_skip (md : MetaData) (now : Int)
    (rs₁ : List (Role × RoleEnv)) (r : Role) (renv : RoleEnv)
    (rs₂ : List (Role × RoleEnv))
    (h : created_within_age now md.unused_access_age r.create_date = true) :
    analyzeRolesLoop md now (rs₁ ++ (r, renv) :: rs₂) =
      analyzeRolesLoop md now (rs₁ ++ rs₂) := by
  induction rs₁ with
  | nil =>
    simp only [List.nil_append, analyzeRolesLoop, h, if_true]
  | cons x rs₁ ih =>
    obtain ⟨xr, xe⟩ := x
    simp only [List.cons_append, analyzeRolesLoop, List.append_eq]
    rw [ih]

/-- Claim C9: an identity (user or role) created less than
`unused_access_age` days before the analysis instant is skipped entirely —
removing it from the input leaves `analyze_account`'s result unchanged, so it
contributes zero findings regardless of any other signal in its
environment. -/
theorem c9_young_identity_contributes_nothing (md : MetaData) (now : Int) :
    (∀ (us₁ us₂ : List (User × UserEnv)) (roles : List (Role × RoleEnv))
      (u : User) (uenv : UserEnv) (c : Int),
      fromUnixTimestamp u.create_date = some c →
      now - c < daysSecs md.unused_access_age →
      analyze_account md now (us₁ ++ (u, uenv) :: us₂) roles =
        analyze_account md now (us₁ ++ us₂) roles) ∧
    (∀ (users : List (User × UserEnv)) (rs₁ rs₂ : List (Role × RoleEnv))
      (r : Role) (renv : RoleEnv) (c : Int),
      fromUnixTimestamp r.create_date = some c →
      now - c < daysSecs md.unused_access_age →
      analyze_account md now users (rs₁ ++ (r, renv) :: rs₂) =
        analyze_account md now users (rs₁ ++ rs₂)) := by
  constructor
  · intro us₁ us₂ roles u uenv c h₁ h₂
    have hskip : created_within_age now md.unused_access_age u.create_date
        = true := by
      simp [created_within_age, isSomeAnd, h₁, h₂]
    unfold analyze_account
    rw [analyzeUsersLoop_skip md now us₁ u uenv us₂ hskip]
  · intro users rs₁ rs₂ r renv c h₁ h₂
    have hskip : created_within_age now md.unused_access_age r.create_date
        = true := by
      simp [created_within_age, isSomeAnd, h₁, h₂]
    unfold analyze_account
    rw [analyzeRolesLoop_skip md now rs₁ r renv rs₂ hskip]

/-- Witness for `c9_young_identity_contributes_nothing`: the 1000-second-old
`c9User` and `c9Role` are dropped from the analysis. -/
theorem c9_young_identity_contributes_nothing_witness :
    fromUnixTimestamp (1699999000 : Int) = some 1699999000 ∧
    ((1700000000 : Int) - 1699999000 < daysSecs 90) ∧
    analyze_account cMd 1700000000 [(c9User, c9UEnv)] [(c9Role, c9REnv)] =
      analyze_account cMd 1700000000 [] [(c9Role, c9REnv)] :=
  ⟨by decide, by decide,
    (c9_young_identity_contributes_nothing cMd 1700000000).1 [] []
      [(c9Role, c9REnv)] c9User c9UEnv 1699999000 (by decide) (by decide)⟩

/-! ### Finding well-formedness -/

theorem keptPermissionDetails_variant (now age : Int)
    (svcs : List ServiceLastAccessed) :
    ∀ d ∈ keptPermissionDetails now age svcs,
      detailType d = FindingType.UnusedPermission := by
  intro d hd
  simp only [keptPermissionDetails] at hd
  rcases List.mem_filterMap.mp hd with ⟨s, _, hg⟩
  by_cases hall : (UnusedPermissionDetails.ofService s).all_used now age
  · simp [hall] at hg
  · simp only [hall, Bool.false_eq_true, if_false, Option.some.injEq] at hg
    subst hg
    rfl

theorem permissionFinding_wf (md : MetaData) (now : Int) (arn : String)
    (rt : ResourceType) (svcs : List ServiceLastAccessed) :
    ∀ f ∈ permissionFinding md now arn rt svcs, WellFormed f rt := by
  intro f hf
  simp only [permissionFinding] at hf
  cases hk : (keptPermissionDetails now md.unused_access_age svcs).isEmpty with
  | true => simp [hk] at hf
  | false =>
    rw [hk] at hf
    simp at hf
    subst hf
    refine ⟨?_, ?_, ?_, rfl⟩
    · have := List.isEmpty_eq_false_iff_exists_mem.mp hk
      rcases this with ⟨x, hx⟩
      exact List.ne_nil_of_mem hx
    · intro d hd
      exact keptPermissionDetails_variant now md.unused_access_age svcs d hd
    · intro hne
      exact absurd rfl hne

/-- Claim C10: every finding constructed by `analyze_user` or `analyze_role`
is well-formed — non-empty details, each detail variant matching the finding
type, exactly one detail for the three non-permission finding types, and
resource type `AwsIamUser` for user findings and `AwsIamRole` for role
findings. -/
theorem c10_findings_well_formed :
    (∀ (md : MetaData) (u : User) (env : UserEnv) (l : List Finding),
      analyze_user md u env = Except.ok l →
      ∀ f ∈ l, WellFormed f ResourceType.AwsIamUser) ∧
    (∀ (md : MetaData) (r : Role) (env : RoleEnv) (l : List Finding),
      analyze_role md r env = Except.ok l →
      ∀ f ∈ l, WellFormed f ResourceType.AwsIamRole) := by
  constructor
  · intro md u env l h f hf
    simp only [analyze_user] at h
    cases hlp : env.login_profile with
    | err e => simp only [hlp] at h; simp at h
    | noSuchEntity =>
      simp only [hlp] at h
      cases hak : env.access_keys with
      | error e => simp only [hak] at h; simp at h
      | ok keys =>
        simp only [hak] at h
        cases hkf : analyzeKeys md env.now u.arn env keys with
        | error e => simp only [hkf] at h; simp at h
        | ok kf =>
          simp only [hkf] at h
          cases hsv : (get_last_accessed env.advisor).1 with
          | error e => simp only [hsv] at h; simp at h
          | ok svcs =>
            simp only [hsv] at h
            simp only [Except.ok.injEq] at h
            subst h
            rcases List.mem_append.mp hf with hf' | hfp
            · rcases List.mem_append.mp hf' with hfpw | hfk
              · by_cases hcond : isSomeAnd (none : Option LoginProfile)
                    (fun lp => isSomeAnd (fromUnixTimestamp lp.create_date)
                      (fun created =>
                        decide (env.now - created >
                          daysSecs md.unused_access_age))) = true
                · simp [isSomeAnd] at hcond
                · rw [if_neg (by simp [isSomeAnd])] at hfpw
                  simp at hfpw
              · have := analyzeKeys_ok md env.now u.arn env keys kf hkf
                obtain ⟨-, hm⟩ := this
                obtain ⟨ht, hl, hd, hrt, -⟩ := hm f hfk
                exact ⟨by intro hnil; rw [hnil] at hl; simp at hl,
                  by rw [ht]; exact hd, fun _ => hl, hrt⟩
            · exact permissionFinding_wf md env.now u.arn
                ResourceType.AwsIamUser svcs f hfp
    | ok p =>
      simp only [hlp] at h
      cases hak : env.access_keys with
      | error e => simp only [hak] at h; simp at h
      | ok keys =>
        simp only [hak] at h
        cases hkf : analyzeKeys md env.now u.arn env keys with
        | error e => simp only [hkf] at h; simp at h
        | ok kf =>
          simp only [hkf] at h
          cases hsv : (get_last_accessed env.advisor).1 with
          | error e => simp only [hsv] at h; simp at h
          | ok svcs =>
            simp only [hsv] at h
            simp only [Except.ok.injEq] at h
            subst h
            rcases List.mem_append.mp hf with hf' | hfp
            · rcases List.mem_append.mp hf' with hfpw | hfk
              · by_cases hcond : isSomeAnd p
                    (fun lp => isSomeAnd (fromUnixTimestamp lp.create_date)
                      (fun created =>
                        decide (env.now - created >
                          daysSecs md.unused_access_age))) = true
                · rw [if_pos hcond] at hfpw
                  cases hchk : check_last_accessed_detail env.now
                      md.unused_access_age u.password_last_used with
                  | none => rw [hchk] at hfpw; simp at hfpw
                  | some detail =>
                    rw [hchk] at hfpw
                    simp at hfpw
                    subst hfpw
                    refine ⟨by simp, ?_, fun _ => rfl, rfl⟩
                    intro d hd
                    simp at hd
                    subst hd
                    rfl
                · rw [if_neg hcond] at hfpw
                  simp at hfpw
              · have := analyzeKeys_ok md env.now u.arn env keys kf hkf
                obtain ⟨-, hm⟩ := this
                obtain ⟨ht, hl, hd, hrt, -⟩ := hm f hfk
                exact ⟨by intro hnil; rw [hnil] at hl; simp at hl,
                  by rw [ht]; exact hd, fun _ => hl, hrt⟩
            · exact permissionFinding_wf md env.now u.arn
                ResourceType.AwsIamUser svcs f hfp
  · intro md r env l h f hf
    simp only [analyze_role] at h
    cases hsv : (get_last_accessed env.advisor).1 with
    | error e => simp only [hsv] at h; simp at h
    | ok svcs =>
      simp only [hsv] at h
      simp only [Except.ok.injEq] at h
      subst h
      rcases List.mem_append.mp hf with hfr | hfp
      · cases hchk : check_last_accessed_detail env.now md.unused_access_age
            (r.role_last_used.bind RoleLastUsed.last_used_date) with
        | none => rw [hchk] at hfr; simp at hfr
        | some detail =>
          rw [hchk] at hfr
          simp at hfr
          subst hfr
          refine ⟨by simp, ?_, fun _ => rfl, rfl⟩
          intro d hd
          simp at hd
          subst hd
          rfl
      · exact permissionFinding_wf md env.now r.arn
          ResourceType.AwsIamRole svcs f hfp

/-- Witness for `c10_findings_well_formed`: the `UnusedIamRole` finding
emitted for `c10Role` is well-formed (shown through two of its
components). -/
theorem c10_findings_well_formed_witness :
    c10F.finding_details ≠ [] ∧
    c10F.resource_type = ResourceType.AwsIamRole :=
  let wf := c10_findings_well_formed.2 cMd c10Role c10REnv [c10F] rfl
    c10F (by decide)
  ⟨wf.1, wf.2.2.2⟩
